import Mathlib

/- Shallow embedding of the SURGIPULSE repository (src/app.py, src/db.py,
src/reports.py).  The `App` namespace models the Streamlit variant in
src/app.py (Staff / Surgery / Target tables and the page handlers); the
`Db` namespace models the schema of src/db.py together with the report
aggregation of src/reports.py.  Machine integers of the source are Nat/Int
(SQLite integers never overflow in the ranges used), pandas float division
is modelled by exact rationals extended with infinity/NaN, and wall-clock
timestamp defaults (`created_at`, `assigned_at`), which no claim inspects,
are dropped from the rows. -/

namespace Surgipulse

/-- Calendar date (year, month, day).  The code stores `datetime` values but
every claim only inspects the calendar day, so the time-of-day component is
dropped. -/
structure Date where
  year : Nat
  month : Nat
  day : Nat
deriving DecidableEq

/-- The "YYYY-MM" month key of a date, as produced by
`pd.to_datetime(df["Date"]).dt.to_period("M").astype(str)` (app.py line 172). -/
def monthStr (d : Date) : String :=
  toString d.year ++ "-" ++ (if d.month < 10 then "0" ++ toString d.month else toString d.month)

namespace App

/-- Row of the `staff` table (app.py lines 16-25).  `created_at` (a wall-clock
default never read by any handler) is dropped. -/
structure Staff where
  id : Nat
  name : String
  role : String
  hospital : String
  region : String
deriving DecidableEq

/-- Row of the `surgery` table (app.py lines 28-35).  The autoincrement
primary key is never read by a handler and is dropped. -/
structure Surgery where
  staff_id : Nat
  hospital : String
  region : String
  date : Date
deriving DecidableEq

/-- Row of the `target` table (app.py lines 38-45); `assigned_at` dropped as
for `Staff.created_at`. -/
structure Target where
  staff_id : Nat
  month : String
  target_surgeries : Int
deriving DecidableEq

/-- The persistent store: the three tables, each a list in insertion order
(SQLite rowid order, which is the order `select(...)` returns). -/
structure DbState where
  staffL : List Staff
  surgeries : List Surgery
  targets : List Target
deriving DecidableEq

/-- The fixed sample staff inserted by `seed_default_staff` (app.py lines
66-81), with the autoincrement ids 1..14 they receive in an empty table. -/
def sampleStaff : List Staff :=
  [ ⟨1, "Josephine", "Nurse", "Moi Teaching & Referral Hospital", "Eldoret"⟩,
    ⟨2, "Carol", "Surgeon", "Aga Khan University Hospital", "Nairobi/Kijabe"⟩,
    ⟨3, "Jacob", "Technician", "Meru Teaching & Referral", "Meru"⟩,
    ⟨4, "Naomi", "Nurse", "Coast General Hospital", "Mombasa"⟩,
    ⟨5, "Charity", "Surgeon", "Kenyatta National Hospital", "Nairobi/Kijabe"⟩,
    ⟨6, "Kevin", "Assistant", "St. Luke’s Orthopedic Hospital", "Eldoret"⟩,
    ⟨7, "Miriam", "Surgeon", "Meru Level 5 Hospital", "Meru"⟩,
    ⟨8, "Brian", "Technician", "Mombasa Hospital", "Mombasa"⟩,
    ⟨9, "James", "Surgeon", "Kijabe Mission Hospital", "Nairobi/Kijabe"⟩,
    ⟨10, "Faith", "Nurse", "Reale Hospital", "Eldoret"⟩,
    ⟨11, "Geoffrey", "Technician", "Mater Hospital", "Nairobi/Kijabe"⟩,
    ⟨12, "Spencer", "Surgeon", "Pandya Memorial Hospital", "Mombasa"⟩,
    ⟨13, "Evans", "Nurse", "Meru General Hospital", "Meru"⟩,
    ⟨14, "Eric", "Surgeon", "Moi Teaching & Referral Hospital", "Eldoret"⟩ ]

/-- `seed_default_staff` (app.py lines 62-83): insert the sample staff iff
the Staff table is empty; otherwise do nothing. -/
def seedDefaultStaff (st : DbState) : DbState :=
  if st.staffL.isEmpty then { st with staffL := sampleStaff } else st

/-- The Log Surgery button handler (app.py lines 197-200):
`session.add(Surgery(staff_id=..., hospital=..., region=..., date=...));
session.commit()`.  There is no check that `staff_id` references an existing
Staff row (SQLite foreign keys are off by default, so the insert always
succeeds), and no `NotFoundError` exists anywhere in the source. -/
def logSurgery (st : DbState) (sid : Nat) (hospital region : String) (d : Date) : DbState :=
  { st with surgeries := st.surgeries ++ [⟨sid, hospital, region, d⟩] }

/-- The Assign Target button handler (app.py lines 221-224):
`session.add(Target(staff_id=..., month=..., target_surgeries=target));
session.commit()`.  The handler performs no validation of its own
(non-positive targets are kept out only by the `number_input(min_value=1)`
widget, months only by the `selectbox`); no `ValidationError` exists in the
source. -/
def assignTarget (st : DbState) (sid : Nat) (m : String) (tv : Int) : DbState :=
  { st with targets := st.targets ++ [⟨sid, m, tv⟩] }

/-- `generate_random_surgeries` (app.py lines 116-135), with the random
draws made explicit: `picks` supplies, positionally for each staff row, the
list of random dates chosen for it; one Surgery row is appended per date,
copying the staff member's hospital and region. -/
def generateRandomSurgeries (st : DbState) (picks : List (List Date)) : DbState :=
  { st with
    surgeries := st.surgeries ++
      (st.staffL.zip picks).flatMap (fun p => p.2.map (fun d => Surgery.mk p.1.id p.1.hospital p.1.region d)) }

/-- One row of the leaderboard table (app.py lines 267-272): staff name,
completed surgery count, summed target, and the progress string
`f"{len(surgeries)}/{total_target}"`, or `"No target"` when the summed
target is falsy (zero). -/
structure LRow where
  staff : String
  surgeries : Nat
  target : Int
  progress : String
deriving DecidableEq

/-- The dictionary built for one staff member by the Leaderboard handler
(app.py lines 263-272): surgeries and targets are filtered by `staff_id`,
targets summed. -/
def rowOf (surgeries : List Surgery) (targets : List Target) (s : Staff) : LRow :=
  let cnt := (surgeries.filter (fun x => decide (x.staff_id = s.id))).length
  let tot := ((targets.filter (fun t => decide (t.staff_id = s.id))).map
    (fun t => t.target_surgeries)).sum
  ⟨s.name, cnt, tot, if tot = 0 then "No target" else toString cnt ++ "/" ++ toString tot⟩

/-- The ascending comparison pandas uses to argsort the leaderboard rows
before reversing for `ascending=False`: by the "Surgeries" key, with ties by
original row position (numpy's sort is stable on tables of this size, so the
ascending argsort orders ties by position). -/
def lbLe (a b : Nat × LRow) : Bool :=
  decide (a.2.surgeries < b.2.surgeries) ||
    (decide (a.2.surgeries = b.2.surgeries) && decide (a.1 ≤ b.1))

/-- Insert into a sorted list, keeping `le`-order. -/
def insertLe (le : α → α → Bool) (x : α) : List α → List α
  | [] => [x]
  | y :: ys => if le x y then x :: y :: ys else y :: insertLe le x ys

/-- Insertion sort by a boolean comparison. -/
def isort (le : α → α → Bool) : List α → List α
  | [] => []
  | x :: xs => insertLe le x (isort le xs)

/-- The leaderboard rows paired with their original positions, after
`df.sort_values(by="Surgeries", ascending=False)` (app.py line 273): pandas
`nargsort` computes the ascending argsort of the key column and reverses the
resulting permutation for a descending sort, so the output is the reverse of
the position-stable ascending order. -/
def leaderboardIdx (staffL : List Staff) (surgeries : List Surgery) (targets : List Target) :
    List (Nat × LRow) :=
  (isort lbLe ((staffL.map (rowOf surgeries targets)).enum)).reverse

/-- The leaderboard table shown by the Leaderboard page (app.py lines
258-274). -/
def leaderboard (staffL : List Staff) (surgeries : List Surgery) (targets : List Target) :
    List LRow :=
  (leaderboardIdx staffL surgeries targets).map Prod.snd

/-- `df.groupby("Month").size()` over the surgery table (app.py line 173):
one entry per distinct month key carrying the number of surgeries whose date
falls in that month. -/
def monthCounts (surgeries : List Surgery) : List (String × Nat) :=
  let ms := surgeries.map (fun s => monthStr s.date)
  ms.dedup.map (fun m => (m, ms.count m))

/-- The dashboard monthly trend series (app.py lines 171-175): the grouped
counts are reindexed onto the requested window of months with `fill_value=0`,
which keeps exactly the window's labels in window order, zero-filling months
with no surgeries (months outside the window are dropped). -/
def monthlyTrend (window : List String) (surgeries : List Surgery) : List (String × Nat) :=
  window.map (fun m => (m, ((monthCounts surgeries).lookup m).getD 0))

/-- The store-mutating operations of the app, one constructor per handler
that writes to the database. -/
inductive Op where
  | log (sid : Nat) (hospital region : String) (d : Date)
  | assign (sid : Nat) (m : String) (tv : Int)
  | seed
  | gen (picks : List (List Date))

/-- Run one operation against the store. -/
def applyOp (st : DbState) : Op → DbState
  | .log sid h r d => logSurgery st sid h r d
  | .assign sid m tv => assignTarget st sid m tv
  | .seed => seedDefaultStaff st
  | .gen picks => generateRandomSurgeries st picks

/-- Run a sequence of operations against the store. -/
def applyOps (st : DbState) (ops : List Op) : DbState :=
  ops.foldl applyOp st

end App

namespace Db

/-- Row of the `users` table (db.py lines 8-16). -/
structure User where
  id : Nat
  username : String
  role : String
deriving DecidableEq

/-- Row of the `surgeries` table (db.py lines 19-30); the time-of-day of
`date` is dropped as elsewhere. -/
structure Surgery where
  id : Nat
  staff_id : Nat
  surgery_type : String
  patient_id : Option String
  date : Date
  duration_minutes : Option Nat
  outcome : Option String
deriving DecidableEq

/-- Row of the `targets` table (db.py lines 33-42). -/
structure Target where
  id : Nat
  staff_id : Nat
  case_type : String
  target_cases : Int
  period : String
deriving DecidableEq

/-- Value of the pandas "Progress %" column: int64/int64 division promotes
to float64, so `c/t*100` is an exact dyadic-free rational here when `t ≠ 0`,
`+inf` when `t = 0 < c`, and NaN when `c = t = 0`; pandas raises in none of
these cases.  Rationals stand in for float64; every value a claim inspects
is exactly representable. -/
inductive PVal where
  | fin (q : ℚ)
  | posInf
  | nan
deriving DecidableEq

/-- Round-half-to-even (as numpy rounds) of the exact rational `n / d`, for
`d ≠ 0`, written out on integers: with `f = ⌊n/d⌋`, the fractional part
`(n - f*d)/d` is compared against 1/2 by comparing its doubled numerator
against the (positive) denominator. -/
def roundHEDiv (n d : Int) : Int :=
  let n2 := if d < 0 then -n else n
  let d2 := if d < 0 then -d else d
  let f := n2.fdiv d2
  let r2 := 2 * (n2 - f * d2)
  if r2 < d2 then f
  else if d2 < r2 then f + 1
  else if f % 2 = 0 then f else f + 1

/-- `round(completed / target * 100, 1)` computed exactly: numpy's
round-half-even of `completed/target*100` at one decimal place is the
integral round-half-even of `1000*completed/target`, read in tenths. -/
def progressPercent (completed : Nat) (target : Int) : ℚ :=
  mkRat (roundHEDiv (1000 * (completed : Int)) target) 10

/-- The "Progress %" cell computed by
`(df["Completed Cases"] / df["Target Cases"] * 100).round(1)`
(reports.py line 30).  There is no guard against a zero target: the int64
columns divide as float64, giving `+inf` for `c/0` with `c > 0` and NaN for
`0/0`, and pandas raises in neither case. -/
def progressOf (completed : Nat) (target : Int) : PVal :=
  if target = 0 then (if completed = 0 then .nan else .posInf)
  else .fin (progressPercent completed target)

/-- One row of the DataFrame returned by `get_trend_data`
(reports.py lines 29-31). -/
structure TrendRow where
  staff : String
  period : String
  caseType : String
  targetCases : Int
  completedCases : Nat
  progress : PVal
deriving DecidableEq

/-- The rows of `User JOIN Target ON User.id = Target.staff_id` surviving
`filter(Target.period.in_(months))` (reports.py lines 22-24), in the nested
loop order SQLite produces for this unindexed join. -/
def matchingPairs (users : List User) (targets : List Target) (months : List String) :
    List (User × Target) :=
  users.flatMap (fun u =>
    (targets.filter (fun t => decide (t.staff_id = u.id ∧ t.period ∈ months))).map
      (fun t => (u, t)))

/-- The GROUP BY key of the query (reports.py line 25): username, period,
case type, target count — notably not the target's or user's id. -/
def keyOf (p : User × Target) : String × String × String × Int :=
  (p.1.username, p.2.period, p.2.case_type, p.2.target_cases)

/-- Number of surgery rows whose `staff_id` is this user's id — the
left-outer-joined `Surgery` rows a (user, target) pair contributes, with a
NULL row (contributing 0 to `count(Surgery.id)`) when there are none.  The
join condition (reports.py line 23) mentions only `staff_id`: the surgery's
date, type and period are not consulted. -/
def surgCount (surgeries : List Surgery) (u : User) : Nat :=
  (surgeries.filter (fun s => decide (s.staff_id = u.id))).length

/-- `func.count(Surgery.id)` for one group: each (user, target) pair of the
group contributes the user's full surgery count. -/
def groupCompleted (pairs : List (User × Target)) (surgeries : List Surgery)
    (k : String × String × String × Int) : Nat :=
  ((pairs.filter (fun p => decide (keyOf p = k))).map (fun p => surgCount surgeries p.1)).sum

/-- `get_trend_data(months)` (reports.py lines 12-31): group the filtered
join by `keyOf`, count surgeries per group, and append the unguarded
"Progress %" column.  Row order of the grouped query is not fixed by the
source (SQLite chooses it); no theorem below depends on the order of
distinct groups. -/
def trendData (users : List User) (targets : List Target) (surgeries : List Surgery)
    (months : List String) : List TrendRow :=
  let pairs := matchingPairs users targets months
  ((pairs.map keyOf).dedup).map (fun k =>
    ⟨k.1, k.2.1, k.2.2.1, k.2.2.2, groupCompleted pairs surgeries k,
      progressOf (groupCompleted pairs surgeries k) k.2.2.2⟩)

/-- `period_df = df[df["Period"] == period]` (reports.py line 76): the rows
of the report table for one period. -/
def periodTable (rows : List TrendRow) (period : String) : List TrendRow :=
  rows.filter (fun r => decide (r.period = period))

end Db

/-- Every single operation leaves the Surgery and Target tables it started
with as a prefix of the resulting tables. -/
theorem applyOp_extends (st : App.DbState) (op : App.Op) :
    ∃ e f, (App.applyOp st op).surgeries = st.surgeries ++ e ∧
      (App.applyOp st op).targets = st.targets ++ f := by
  cases op with
  | log sid h r d => exact ⟨[⟨sid, h, r, d⟩], [], rfl, by simp [App.applyOp, App.logSurgery]⟩
  | assign sid m tv => exact ⟨[], [⟨sid, m, tv⟩], by simp [App.applyOp, App.assignTarget], rfl⟩
  | seed =>
    refine ⟨[], [], ?_, ?_⟩ <;>
      · simp only [App.applyOp, App.seedDefaultStaff, List.append_nil]
        split <;> rfl
  | gen picks =>
    exact ⟨_, [], rfl, by simp [App.applyOp, App.generateRandomSurgeries]⟩

/-- C1.  The claim reads: a surgery-logging request whose staff id does not
reference an existing Staff row fails with `NotFoundError` and creates no
Surgery row.  The code has no such check (and no `NotFoundError` at all):
app.py lines 197-200 append the Surgery row unconditionally.  This theorem
evaluates the code at the failing input: on the freshly seeded store, whose
fourteen staff ids all differ from 99, logging a surgery for staff id 99
still appends exactly that Surgery row and signals nothing. -/
theorem C1_unchecked_staff_id_still_appends_surgery :
    App.sampleStaff.all (fun s => s.id != 99) = true ∧
    (App.logSurgery (App.seedDefaultStaff ⟨[], [], []⟩) 99 "Kenyatta National Hospital"
        "Nairobi/Kijabe" ⟨2025, 9, 1⟩).surgeries =
      [⟨99, "Kenyatta National Hospital", "Nairobi/Kijabe", ⟨2025, 9, 1⟩⟩] := by
  exact ⟨by decide, rfl⟩

/-- C6 counterexample.  The claim reads: a target-assignment request with
target count ≤ 0 fails with `ValidationError` and no Target row is created.
At the concrete input (staff id 5, month "January", target 0) the handler
appends the Target row and raises nothing — no `ValidationError` exists in
the source. -/
theorem C6_counterexample_zero_target_row_created :
    (App.assignTarget ⟨App.sampleStaff, [], []⟩ 5 "January" 0).targets =
      [⟨5, "January", 0⟩] := rfl

/-- C6 as amended: the Assign Targets handler performs no validation of its
own — for every input (valid or not) it appends exactly one new Target row
holding that input, leaves the other tables unchanged, and never fails;
non-positive counts and malformed months are kept out only by the UI widgets
(`selectbox` month list, `number_input(min_value=1)`). -/
theorem C6_assign_target_appends_exactly_one_row (st : App.DbState) (sid : Nat)
    (m : String) (tv : Int) :
    App.assignTarget st sid m tv = ⟨st.staffL, st.surgeries, st.targets ++ [⟨sid, m, tv⟩]⟩ ∧
    (App.assignTarget st sid m tv).targets.length = st.targets.length + 1 := by
  cases st with
  | mk a b c => exact ⟨rfl, by simp [App.assignTarget]⟩

/-- C7.  Surgery and Target are append-only: after any sequence of store
operations (surgery logging, target assignment, seeding, random generation),
the Surgery and Target tables that were present before are a prefix of — and
hence every one of their rows is present and unchanged in — the resulting
tables. -/
theorem C7_surgery_and_target_append_only (st : App.DbState) (ops : List App.Op) :
    ∃ newSurg newTgt, (App.applyOps st ops).surgeries = st.surgeries ++ newSurg ∧
      (App.applyOps st ops).targets = st.targets ++ newTgt := by
  induction ops generalizing st with
  | nil => exact ⟨[], [], by simp [App.applyOps], by simp [App.applyOps]⟩
  | cons op rest ih =>
    obtain ⟨e, f, he, hf⟩ := applyOp_extends st op
    obtain ⟨e2, f2, he2, hf2⟩ := ih (App.applyOp st op)
    have hstep : App.applyOps st (op :: rest) = App.applyOps (App.applyOp st op) rest := rfl
    refine ⟨e ++ e2, f ++ f2, ?_, ?_⟩
    · rw [hstep, he2, he, List.append_assoc]
    · rw [hstep, hf2, hf, List.append_assoc]

/-- C9.  `seed_default_staff` inserts the fixed fourteen-row sample staff
list exactly when the Staff table is empty, is a no-op whenever any Staff
row exists, and is therefore idempotent: running it a second time changes
nothing. -/
theorem C9_seed_only_when_empty_and_idempotent :
    (∀ st : App.DbState, st.staffL = [] →
        App.seedDefaultStaff st = ⟨App.sampleStaff, st.surgeries, st.targets⟩) ∧
    (∀ st : App.DbState, st.staffL ≠ [] → App.seedDefaultStaff st = st) ∧
    (∀ st : App.DbState,
        App.seedDefaultStaff (App.seedDefaultStaff st) = App.seedDefaultStaff st) := by
  have h1 : ∀ st : App.DbState, st.staffL = [] →
      App.seedDefaultStaff st = ⟨App.sampleStaff, st.surgeries, st.targets⟩ := by
    intro st h
    cases st with
    | mk a b c => simp_all [App.seedDefaultStaff]
  have h2 : ∀ st : App.DbState, st.staffL ≠ [] → App.seedDefaultStaff st = st := by
    intro st h
    simp [App.seedDefaultStaff, List.isEmpty_iff, h]
  refine ⟨h1, h2, ?_⟩
  intro st
  by_cases h : st.staffL = []
  · rw [h1 st h]
    exact h2 _ (by simp [App.sampleStaff])
  · rw [h2 st h]
    exact h2 st h

/-- C9 witness: on the empty store the seed inserts the sample staff, and a
second run changes nothing. -/
theorem C9_witness :
    App.seedDefaultStaff ⟨[], [], []⟩ = ⟨App.sampleStaff, [], []⟩ ∧
    App.seedDefaultStaff (App.seedDefaultStaff ⟨[], [], []⟩) =
      App.seedDefaultStaff ⟨[], [], []⟩ :=
  ⟨C9_seed_only_when_empty_and_idempotent.1 ⟨[], [], []⟩ rfl,
    C9_seed_only_when_empty_and_idempotent.2.2 ⟨[], [], []⟩⟩

/-- Looking a key up in an association list whose entries are built by one
function over a key list yields that function's value iff the key occurs. -/
theorem lookup_map_self (g : String → Nat) (m : String) (keys : List String) :
    (keys.map (fun k => (k, g k))).lookup m = if m ∈ keys then some (g m) else none := by
  induction keys with
  | nil => simp
  | cons k ks ih =>
    by_cases hmk : m = k
    · subst hmk
      simp [List.lookup]
    · have hbeq : (m == k) = false := beq_false_of_ne hmk
      simp [List.lookup, hbeq, ih, hmk]

/-- The reindexed lookup of a month in the grouped counts is exactly the
number of surgeries dated in that month (0 when there are none, since the
group-by emits no entry for an absent key). -/
theorem monthCounts_lookup (surgeries : List App.Surgery) (m : String) :
    ((App.monthCounts surgeries).lookup m).getD 0 =
      (surgeries.filter (fun s => monthStr s.date == m)).length := by
  unfold App.monthCounts
  rw [lookup_map_self]
  by_cases hm : m ∈ surgeries.map (fun s => monthStr s.date)
  · rw [if_pos (List.mem_dedup.mpr hm)]
    simp only [Option.getD_some, List.count, List.countP_map]
    rw [← List.countP_eq_length_filter]
    rfl
  · rw [if_neg (fun h => hm (List.mem_dedup.mp h))]
    simp only [Option.getD_none]
    symm
    rw [List.length_eq_zero, List.filter_eq_nil_iff]
    intro s hs hcontra
    exact hm (List.mem_map.mpr ⟨s, hs, beq_iff_eq.mp hcontra⟩)

/-- Counting with a disjunction of pointwise-exclusive predicates splits
into a sum of counts. -/
theorem countP_disjoint_or (l : List α) (p q : α → Bool)
    (h : ∀ a ∈ l, p a = true → q a = false) :
    l.countP (fun a => p a || q a) = l.countP p + l.countP q := by
  induction l with
  | nil => simp
  | cons x xs ih =>
    have ih' := ih (fun a ha => h a (List.mem_cons_of_mem x ha))
    by_cases hp : p x = true
    · have hq := h x (List.mem_cons_self x xs) hp
      simp [List.countP_cons, hp, hq, ih']
      omega
    · simp only [Bool.not_eq_true] at hp
      by_cases hq : q x = true <;> simp [List.countP_cons, hp, hq, ih'] <;> omega

/-- C5.  For every window of distinct calendar months, the dashboard monthly
trend returns one `(month, count)` pair per month of the window, in window
order, whose count is exactly the number of Surgery rows dated in that month
(so months without surgeries carry 0), and the per-month counts sum to the
total number of surgeries dated within the window. -/
theorem C5_monthly_trend_counts_and_total (window : List String)
    (surgeries : List App.Surgery) (hw : window.Nodup) :
    App.monthlyTrend window surgeries =
      window.map (fun m => (m, (surgeries.filter (fun s => monthStr s.date == m)).length)) ∧
    ((App.monthlyTrend window surgeries).map Prod.snd).sum =
      (surgeries.filter (fun s => decide (monthStr s.date ∈ window))).length := by
  have h1 : App.monthlyTrend window surgeries =
      window.map (fun m => (m, (surgeries.filter (fun s => monthStr s.date == m)).length)) := by
    simp only [App.monthlyTrend, monthCounts_lookup]
  refine ⟨h1, ?_⟩
  rw [h1]
  clear h1
  induction window with
  | nil => simp
  | cons m ws ih =>
    have hnotin : m ∉ ws := (List.nodup_cons.mp hw).1
    have ihs := ih (List.nodup_cons.mp hw).2
    have hpt : (fun s : App.Surgery => decide (monthStr s.date ∈ m :: ws)) =
        (fun s => (monthStr s.date == m) || decide (monthStr s.date ∈ ws)) := by
      funext s
      by_cases hh1 : monthStr s.date = m <;> by_cases hh2 : monthStr s.date ∈ ws <;>
        simp [hh1, hh2]
    have hsplit :
        (surgeries.filter (fun s => decide (monthStr s.date ∈ m :: ws))).length =
          (surgeries.filter (fun s => monthStr s.date == m)).length +
            (surgeries.filter (fun s => decide (monthStr s.date ∈ ws))).length := by
      rw [← List.countP_eq_length_filter, ← List.countP_eq_length_filter,
        ← List.countP_eq_length_filter, hpt, countP_disjoint_or]
      intro s _ hps
      have hm2 : monthStr s.date = m := beq_iff_eq.mp hps
      simp [hm2, hnotin]
    simp only [List.map_cons, List.sum_cons]
    rw [ihs, hsplit]

/-- C5 witness: a concrete three-month window over four surgeries, one dated
outside the window; counts are (1, 0, 2) and sum to the 3 in-window
surgeries. -/
theorem C5_witness :
    App.monthlyTrend ["2025-01", "2025-02", "2025-03"]
        [⟨1, "H", "R", ⟨2025, 1, 5⟩⟩, ⟨1, "H", "R", ⟨2025, 3, 5⟩⟩,
         ⟨2, "H", "R", ⟨2025, 3, 9⟩⟩, ⟨2, "H", "R", ⟨2024, 12, 9⟩⟩] =
      [("2025-01", 1), ("2025-02", 0), ("2025-03", 2)] ∧
    (((App.monthlyTrend ["2025-01", "2025-02", "2025-03"]
        [⟨1, "H", "R", ⟨2025, 1, 5⟩⟩, ⟨1, "H", "R", ⟨2025, 3, 5⟩⟩,
         ⟨2, "H", "R", ⟨2025, 3, 9⟩⟩, ⟨2, "H", "R", ⟨2024, 12, 9⟩⟩]).map Prod.snd).sum = 3) := by
  have h := C5_monthly_trend_counts_and_total ["2025-01", "2025-02", "2025-03"]
    [⟨1, "H", "R", ⟨2025, 1, 5⟩⟩, ⟨1, "H", "R", ⟨2025, 3, 5⟩⟩,
     ⟨2, "H", "R", ⟨2025, 3, 9⟩⟩, ⟨2, "H", "R", ⟨2024, 12, 9⟩⟩] (by decide)
  exact ⟨by rw [h.1]; decide, by rw [h.2]; decide⟩

/-- A pair surviving the filtered join consists of a user of the table and a
target of the table whose `staff_id` is that user's id and whose period lies
in the requested months. -/
theorem mem_matchingPairs (users : List Db.User) (targets : List Db.Target)
    (months : List String) (p : Db.User × Db.Target)
    (h : p ∈ Db.matchingPairs users targets months) :
    p.1 ∈ users ∧ p.2 ∈ targets ∧ p.2.staff_id = p.1.id ∧ p.2.period ∈ months := by
  simp only [Db.matchingPairs, List.mem_flatMap, List.mem_map, List.mem_filter] at h
  obtain ⟨u, hu, t, ⟨ht, hcond⟩, hp⟩ := h
  rw [decide_eq_true_iff] at hcond
  subst hp
  exact ⟨hu, ht, hcond.1, hcond.2⟩

/-- Every row of `get_trend_data` is the row built for some group key of the
filtered join. -/
theorem mem_trendData (users : List Db.User) (targets : List Db.Target)
    (surgeries : List Db.Surgery) (months : List String) (row : Db.TrendRow)
    (h : row ∈ Db.trendData users targets surgeries months) :
    ∃ k ∈ ((Db.matchingPairs users targets months).map Db.keyOf).dedup,
      row = ⟨k.1, k.2.1, k.2.2.1, k.2.2.2,
        Db.groupCompleted (Db.matchingPairs users targets months) surgeries k,
        Db.progressOf
          (Db.groupCompleted (Db.matchingPairs users targets months) surgeries k) k.2.2.2⟩ := by
  simp only [Db.trendData, List.mem_map] at h
  obtain ⟨k, hk, hrow⟩ := h
  exact ⟨k, hk, hrow.symm⟩

/-- C2 counterexample.  The claim reads: when the total assigned target is 0
the aggregation returns `progress_percent = 0` (including staff with no
Target rows).  At the concrete inputs: a Target row with `target_cases = 0`
and one logged surgery produces a row whose "Progress %" is `+inf` — the
float division `1/0*100` of reports.py line 30 is unguarded — and `+inf` is
not 0; and a staff member with no Target rows yields no row at all rather
than a row with progress 0. -/
theorem C2_counterexample_zero_target_gives_inf :
    Db.trendData [⟨1, "Ann", "staff"⟩] [⟨1, 1, "all", 0, "2025-09"⟩]
        [⟨1, 1, "trauma", none, ⟨2025, 9, 3⟩, none, none⟩] ["2025-09"] =
      [⟨"Ann", "2025-09", "all", 0, 1, Db.PVal.posInf⟩] ∧
    Db.PVal.posInf ≠ Db.PVal.fin 0 ∧
    Db.trendData [⟨1, "Ann", "staff"⟩] [] [⟨1, 1, "trauma", none, ⟨2025, 9, 3⟩, none, none⟩]
        ["2025-09"] = [] := by
  exact ⟨by decide, by decide, by decide⟩

/-- C2 as amended: the aggregation never raises, but a staff member with no
Target row in the requested months contributes no row at all (so no
`progress_percent` is reported for them), and a row whose `target_cases` is
0 carries `+inf` (when its completed count is positive) or NaN (when it is
0) in "Progress %" — never 0: the division of reports.py line 30 has no
zero guard, pandas merely does not raise on it. -/
theorem C2_zero_target_progress_inf_or_nan (users : List Db.User) (targets : List Db.Target)
    (surgeries : List Db.Surgery) (months : List String) :
    (∀ row ∈ Db.trendData users targets surgeries months, row.targetCases = 0 →
      row.progress = Db.PVal.posInf ∨ row.progress = Db.PVal.nan) ∧
    (targets = [] → Db.trendData users targets surgeries months = []) := by
  constructor
  · intro row hrow hz
    obtain ⟨k, _, rfl⟩ := mem_trendData users targets surgeries months row hrow
    simp only at hz
    simp only [Db.progressOf, hz, if_pos]
    by_cases hc : Db.groupCompleted (Db.matchingPairs users targets months) surgeries k = 0 <;>
      simp [hc]
  · intro ht
    subst ht
    simp [Db.trendData, Db.matchingPairs]

/-- C2 witness: on the concrete store of the counterexample, the zero-target
row's progress is `+inf` or NaN, and with no Target rows the output is
empty. -/
theorem C2_witness :
    ((⟨"Ann", "2025-09", "all", 0, 1, Db.PVal.posInf⟩ : Db.TrendRow).progress = Db.PVal.posInf ∨
      (⟨"Ann", "2025-09", "all", 0, 1, Db.PVal.posInf⟩ : Db.TrendRow).progress = Db.PVal.nan) ∧
    Db.trendData [⟨1, "Ann", "staff"⟩] [] [⟨1, 1, "trauma", none, ⟨2025, 9, 3⟩, none, none⟩]
        ["2025-09"] = [] := by
  have h := C2_zero_target_progress_inf_or_nan [⟨1, "Ann", "staff"⟩] [⟨1, 1, "all", 0, "2025-09"⟩]
    [⟨1, 1, "trauma", none, ⟨2025, 9, 3⟩, none, none⟩] ["2025-09"]
  have h2 := C2_zero_target_progress_inf_or_nan [⟨1, "Ann", "staff"⟩] []
    [⟨1, 1, "trauma", none, ⟨2025, 9, 3⟩, none, none⟩] ["2025-09"]
  exact ⟨h.1 ⟨"Ann", "2025-09", "all", 0, 1, Db.PVal.posInf⟩ (by decide) rfl, h2.2 rfl⟩

/-- C3 counterexample.  The claim reads: `completed` counts only the Surgery
rows matching the requested scope, so Carol (target 5 for "2025-09") with 3
September-2025 surgeries has achieved = 3 and progress 60.0.  At the
concrete input where Carol has those 3 September surgeries plus 2 August
surgeries, the query of reports.py lines 14-27 joins surgeries on
`staff_id` alone — never on the date — so the returned row counts all 5
surgeries and reports progress 100.0, although only 3 of the 5 surgery rows
are dated in the target's month. -/
theorem C3_counterexample_out_of_scope_surgeries_counted :
    Db.trendData [⟨2, "Carol", "staff"⟩] [⟨1, 2, "all", 5, "2025-09"⟩]
        [⟨1, 2, "trauma", none, ⟨2025, 9, 1⟩, none, none⟩,
         ⟨2, 2, "trauma", none, ⟨2025, 9, 2⟩, none, none⟩,
         ⟨3, 2, "trauma", none, ⟨2025, 9, 3⟩, none, none⟩,
         ⟨4, 2, "trauma", none, ⟨2025, 8, 1⟩, none, none⟩,
         ⟨5, 2, "trauma", none, ⟨2025, 8, 2⟩, none, none⟩] ["2025-09"] =
      [⟨"Carol", "2025-09", "all", 5, 5, Db.PVal.fin 100⟩] ∧
    ([(⟨1, 2, "trauma", none, ⟨2025, 9, 1⟩, none, none⟩ : Db.Surgery),
      ⟨2, 2, "trauma", none, ⟨2025, 9, 2⟩, none, none⟩,
      ⟨3, 2, "trauma", none, ⟨2025, 9, 3⟩, none, none⟩,
      ⟨4, 2, "trauma", none, ⟨2025, 8, 1⟩, none, none⟩,
      ⟨5, 2, "trauma", none, ⟨2025, 8, 2⟩, none, none⟩].filter
        (fun s => monthStr s.date == "2025-09")).length = 3 ∧
    (5 : Nat) ≠ 3 := by
  refine ⟨?_, ?_, ?_⟩ <;> decide

/-- C3 as amended: for a staff member whose single matching target for the
requested months has `target_cases > 0`, the aggregation returns one row
whose `completed` is the count of ALL that staff member's Surgery rows —
regardless of date, period or case type — and whose progress is
`round(completed / target * 100, 1)` (round-half-even, as numpy rounds).
Logging exactly `target_count` surgeries and no others therefore yields
100.0, and the Carol example yields 60.0 with achieved 3 of target 5 only
because no surgery outside September 2025 is logged for her. -/
theorem C3_progress_counts_all_staff_surgeries (users : List Db.User)
    (targets : List Db.Target) (surgeries : List Db.Surgery) (months : List String)
    (u : Db.User) (t : Db.Target)
    (hpairs : Db.matchingPairs users targets months = [(u, t)])
    (hpos : 0 < t.target_cases) :
    Db.trendData users targets surgeries months =
      [⟨u.username, t.period, t.case_type, t.target_cases, Db.surgCount surgeries u,
        Db.PVal.fin (Db.progressPercent (Db.surgCount surgeries u) t.target_cases)⟩] := by
  have hne : t.target_cases ≠ 0 := by omega
  simp [Db.trendData, hpairs, Db.groupCompleted, Db.keyOf, Db.progressOf, hne]

/-- C3 witness: the Carol example exactly as the spec states it — target 5
for "2025-09", exactly 3 surgeries logged, all in September 2025 — produces
the single row with achieved 3, total target 5 and progress 60.0. -/
theorem C3_witness :
    Db.matchingPairs [⟨2, "Carol", "staff"⟩] [⟨1, 2, "all", 5, "2025-09"⟩] ["2025-09"] =
      [(⟨2, "Carol", "staff"⟩, ⟨1, 2, "all", 5, "2025-09"⟩)] ∧
    Db.trendData [⟨2, "Carol", "staff"⟩] [⟨1, 2, "all", 5, "2025-09"⟩]
        [⟨1, 2, "trauma", none, ⟨2025, 9, 1⟩, none, none⟩,
         ⟨2, 2, "trauma", none, ⟨2025, 9, 2⟩, none, none⟩,
         ⟨3, 2, "trauma", none, ⟨2025, 9, 3⟩, none, none⟩] ["2025-09"] =
      [⟨"Carol", "2025-09", "all", 5, 3, Db.PVal.fin 60⟩] := by
  constructor
  · decide
  · rw [C3_progress_counts_all_staff_surgeries [⟨2, "Carol", "staff"⟩]
      [⟨1, 2, "all", 5, "2025-09"⟩]
      [⟨1, 2, "trauma", none, ⟨2025, 9, 1⟩, none, none⟩,
       ⟨2, 2, "trauma", none, ⟨2025, 9, 2⟩, none, none⟩,
       ⟨3, 2, "trauma", none, ⟨2025, 9, 3⟩, none, none⟩] ["2025-09"]
      ⟨2, "Carol", "staff"⟩ ⟨1, 2, "all", 5, "2025-09"⟩ (by decide) (by decide)]
    decide

/-- Inserting permutes to consing. -/
theorem insertLe_perm (le : α → α → Bool) (x : α) (l : List α) :
    (App.insertLe le x l).Perm (x :: l) := by
  induction l with
  | nil => exact List.Perm.refl _
  | cons y ys ih =>
    rw [App.insertLe]
    by_cases h : le x y = true
    · rw [if_pos h]
    · rw [if_neg h]
      exact ((ih.cons y).trans (List.Perm.swap x y ys))

/-- Insertion sort permutes its input. -/
theorem isort_perm (le : α → α → Bool) (l : List α) : (App.isort le l).Perm l := by
  induction l with
  | nil => exact List.Perm.refl _
  | cons x xs ih =>
    exact (insertLe_perm le x (App.isort le xs)).trans (ih.cons x)

/-- Inserting into a `le`-pairwise list keeps it pairwise, for a total and
transitive `le`. -/
theorem insertLe_pairwise (le : α → α → Bool)
    (htot : ∀ a b, le a b = true ∨ le b a = true)
    (htrans : ∀ a b c, le a b = true → le b c = true → le a c = true)
    (x : α) (l : List α) (h : l.Pairwise (fun a b => le a b = true)) :
    (App.insertLe le x l).Pairwise (fun a b => le a b = true) := by
  induction l with
  | nil => simp [App.insertLe]
  | cons y ys ih =>
    rw [App.insertLe]
    obtain ⟨hy, hys⟩ := List.pairwise_cons.mp h
    by_cases hxy : le x y = true
    · rw [if_pos hxy]
      refine List.pairwise_cons.mpr ⟨?_, h⟩
      intro b hb
      rcases List.mem_cons.mp hb with rfl | hb'
      · exact hxy
      · exact htrans x y b hxy (hy b hb')
    · rw [if_neg hxy]
      refine List.pairwise_cons.mpr ⟨?_, ih hys⟩
      intro b hb
      have hb2 : b = x ∨ b ∈ ys := by
        have := (insertLe_perm le x ys).mem_iff.mp hb
        simpa using this
      rcases hb2 with hbx | hb'
      · rw [hbx]
        exact (htot x y).resolve_left hxy
      · exact hy b hb'

/-- Insertion sort yields a `le`-pairwise list, for a total and transitive
`le`. -/
theorem isort_pairwise (le : α → α → Bool)
    (htot : ∀ a b, le a b = true ∨ le b a = true)
    (htrans : ∀ a b c, le a b = true → le b c = true → le a c = true)
    (l : List α) : (App.isort le l).Pairwise (fun a b => le a b = true) := by
  induction l with
  | nil => simp [App.isort]
  | cons x xs ih => exact insertLe_pairwise le htot htrans x _ ih

/-- The leaderboard comparison, unfolded to a proposition. -/
theorem lbLe_iff (a b : Nat × App.LRow) :
    App.lbLe a b = true ↔
      (a.2.surgeries < b.2.surgeries ∨ (a.2.surgeries = b.2.surgeries ∧ a.1 ≤ b.1)) := by
  simp [App.lbLe]

/-- C4 counterexample.  The claim reads: staff with equal completed counts
keep their original insertion order (stable sort).  At the concrete input —
two staff, no surgeries, no targets, hence equal counts 0 — the leaderboard
comes out in reversed insertion order (B before A): pandas'
`sort_values(ascending=False)` reverses the ascending argsort permutation,
so equal keys are emitted backwards. -/
theorem C4_counterexample_equal_counts_order_reversed :
    App.leaderboard [⟨1, "A", "Nurse", "H", "R"⟩, ⟨2, "B", "Nurse", "H", "R"⟩] [] [] =
      [⟨"B", 0, 0, "No target"⟩, ⟨"A", 0, 0, "No target"⟩] ∧
    ([⟨"B", 0, 0, "No target"⟩, ⟨"A", 0, 0, "No target"⟩] : List App.LRow) ≠
      [⟨"A", 0, 0, "No target"⟩, ⟨"B", 0, 0, "No target"⟩] := by
  exact ⟨by decide, by decide⟩

/-- C4 as amended: the leaderboard has one entry per staff member (it is a
permutation of the per-staff rows), sorted in non-increasing order of
completed surgery count; but for staff with equal completed counts the
relative order is the REVERSE of the original staff insertion order, not the
insertion order itself (third conjunct, stated on the rows paired with their
original positions: whenever one entry precedes another with the same count,
its original position is the larger one). -/
theorem C4_leaderboard_sorted_desc_ties_reversed (staffL : List App.Staff)
    (surgeries : List App.Surgery) (targets : List App.Target) :
    (App.leaderboard staffL surgeries targets).Perm
      (staffL.map (App.rowOf surgeries targets)) ∧
    (App.leaderboard staffL surgeries targets).Pairwise
      (fun a b => b.surgeries ≤ a.surgeries) ∧
    (App.leaderboardIdx staffL surgeries targets).Pairwise
      (fun a b => a.2.surgeries = b.2.surgeries → b.1 ≤ a.1) := by
  have htot : ∀ a b, App.lbLe a b = true ∨ App.lbLe b a = true := by
    intro a b
    rw [lbLe_iff, lbLe_iff]
    omega
  have htrans : ∀ a b c, App.lbLe a b = true → App.lbLe b c = true → App.lbLe a c = true := by
    intro a b c h1 h2
    rw [lbLe_iff] at h1 h2 ⊢
    omega
  have hpermIdx : (App.leaderboardIdx staffL surgeries targets).Perm
      ((staffL.map (App.rowOf surgeries targets)).enum) := by
    exact (List.reverse_perm _).trans (isort_perm App.lbLe _)
  have hpw : (App.leaderboardIdx staffL surgeries targets).Pairwise
      (fun a b => App.lbLe b a = true) := by
    rw [App.leaderboardIdx, List.pairwise_reverse]
    exact isort_pairwise App.lbLe htot htrans _
  refine ⟨?_, ?_, ?_⟩
  · have := hpermIdx.map Prod.snd
    rwa [List.enum_map_snd] at this
  · exact hpw.map Prod.snd (fun a b hab => by
      rw [lbLe_iff] at hab
      omega)
  · exact hpw.imp (fun hab heq => by
      rw [lbLe_iff] at hab
      omega)

/-- C10.  A staff member none of whose Target rows has a period among the
requested months contributes no row to `get_trend_data` (the User–Target
join is inner, so users without a matching target are dropped before
grouping), and hence also no row to the per-period report table built from
it: no entry with their username appears, provided no other user carrying
the same username has a matching target. -/
theorem C10_no_target_in_window_no_row (users : List Db.User) (targets : List Db.Target)
    (surgeries : List Db.Surgery) (months : List String) (n : String)
    (h : ∀ u ∈ users, u.username = n → ∀ t ∈ targets, t.staff_id = u.id → t.period ∉ months) :
    ((Db.trendData users targets surgeries months).filter
      (fun r => decide (r.staff = n)) = []) ∧
    ∀ p, (Db.periodTable (Db.trendData users targets surgeries months) p).filter
      (fun r => decide (r.staff = n)) = [] := by
  have hrow : ∀ row ∈ Db.trendData users targets surgeries months, row.staff ≠ n := by
    intro row hmem
    obtain ⟨k, hk, rfl⟩ := mem_trendData users targets surgeries months row hmem
    have hk2 : k ∈ (Db.matchingPairs users targets months).map Db.keyOf :=
      List.mem_dedup.mp hk
    obtain ⟨p, hp, hkey⟩ := List.mem_map.mp hk2
    obtain ⟨hu, ht, hsid, hper⟩ := mem_matchingPairs users targets months p hp
    intro hstaff
    subst hkey
    exact h p.1 hu hstaff p.2 ht hsid hper
  constructor
  · rw [List.filter_eq_nil_iff]
    intro r hr
    simpa using hrow r hr
  · intro p
    rw [List.filter_eq_nil_iff]
    intro r hr
    have hr2 : r ∈ Db.trendData users targets surgeries months :=
      List.mem_of_mem_filter hr
    simpa using hrow r hr2

/-- C10 witness: Bob (id 2) has no Target row at all, Ann (id 1) has one for
"2025-09"; the trend data and the "2025-09" report table contain no row
whose staff is "Bob". -/
theorem C10_witness :
    ((Db.trendData [⟨1, "Ann", "staff"⟩, ⟨2, "Bob", "staff"⟩] [⟨1, 1, "all", 5, "2025-09"⟩]
        [⟨1, 2, "trauma", none, ⟨2025, 9, 4⟩, none, none⟩] ["2025-09"]).filter
      (fun r => decide (r.staff = "Bob")) = []) ∧
    ((Db.periodTable (Db.trendData [⟨1, "Ann", "staff"⟩, ⟨2, "Bob", "staff"⟩]
        [⟨1, 1, "all", 5, "2025-09"⟩] [⟨1, 2, "trauma", none, ⟨2025, 9, 4⟩, none, none⟩]
        ["2025-09"]) "2025-09").filter (fun r => decide (r.staff = "Bob")) = []) := by
  have h := C10_no_target_in_window_no_row [⟨1, "Ann", "staff"⟩, ⟨2, "Bob", "staff"⟩]
    [⟨1, 1, "all", 5, "2025-09"⟩] [⟨1, 2, "trauma", none, ⟨2025, 9, 4⟩, none, none⟩]
    ["2025-09"] "Bob" (by decide)
  exact ⟨h.1, h.2 "2025-09"⟩

end Surgipulse
